import Mathlib

/-!
Shallow embedding of `src/terminus/models/road.py` (class `Road`), together
with minimal models of the external collaborators it consumes (`Point`,
node kinds, `Lane`).  Machine floats of the original are modelled as `ℚ`;
the external geometric primitives `Point.angle` and `Point.distance_to`
are passed as explicit function parameters, since their definitions live
outside this repository slice and the properties below hold for every
choice of them.  Python exceptions are modelled with `Except PyError`.
-/

namespace Terminus

/-- Runtime errors.  `valueError`, `typeError` and `indexError` model the
built-in Python exceptions the code can actually raise (`min()` on an empty
sequence, indexing a list with `None`, indexing an empty list).  The
remaining constructors model the named error classes of the design
taxonomy (`NoLanesError`, `EmptyRoadError`, `NodeNotFoundError`) so that
statements about them can be expressed; the code never raises them. -/
inductive PyError where
  | valueError
  | typeError
  | indexError
  | noLanesError
  | emptyRoadError
  | nodeNotFoundError
deriving DecidableEq, Repr

/-- A 2-D point with exact coordinates; subtraction is componentwise
(the `Prod` instance), matching the vector difference `p - q` used by
`trim_redundant_nodes`. -/
abbrev Point := ℚ × ℚ

/-- Modelled from the spec: the node classes (`RoadSimpleNode`,
`RoadIntersectionNode`) are not under src/.  A node carries an immutable
`center : Point` and answers `is_intersection()`; the two concrete kinds
differ only in that answer. -/
structure Node where
  center : Point
  is_intersection : Bool
deriving DecidableEq, Repr

/-- Modelled from the spec: `RoadSimpleNode(point)` builds a plain waypoint
node at `point`; `is_intersection()` is false. -/
def RoadSimpleNode (point : Point) : Node :=
  { center := point, is_intersection := false }

/-- Modelled from the spec: `RoadIntersectionNode(point)` builds a junction
node at `point`; `is_intersection()` is true. -/
def RoadIntersectionNode (point : Point) : Node :=
  { center := point, is_intersection := true }

/-- Modelled from the spec: the `Lane` class is not under src/.  It stores
the width, the signed offset from the centerline and the direction flag
passed by `Road.add_lane` (the back-reference to the owner road is
omitted). -/
structure Lane where
  width : ℚ
  offset : ℚ
  reversed : Bool
deriving DecidableEq, Repr

/-- Modelled from the spec: `Lane.external_offset()` is the offset adjusted
outward by half the lane width on the far side from the centerline. -/
def Lane.external_offset (lane : Lane) : ℚ :=
  if lane.offset < 0 then lane.offset - lane.width / 2 else lane.offset + lane.width / 2

/-- Bookkeeping calls a node receives from a road
(`node.added_to(road)` / `node.removed_from(road)`).  They are external
side effects; operations whose contract depends on their order return the
emitted trace explicitly. -/
inductive RoadEvent where
  | added_to (node : Node)
  | removed_from (node : Node)
deriving DecidableEq, Repr

/-- The `Road` state: `name` from the `CityModel` base, the ordered node
chain `_nodes`, the point index `_point_to_node` (a Python dict, modelled
as a lookup function with overwrite-on-insert), and the lane list
`_lanes`.  `Road.__init__` corresponds to `Road.new`. -/
structure Road where
  name : Option String
  nodes : List Node
  point_to_node : Point → Option Node
  lanes : List Lane

/-- `Road(name=None)`: fresh road with no nodes, an empty index and no
lanes. -/
def Road.new : Road :=
  { name := none, nodes := [], point_to_node := fun _ => none, lanes := [] }

/-- `Road.add_control_point(point)`: wraps `point` in a fresh
`RoadSimpleNode`, appends it to `_nodes` (via `_add_node`; the
`added_to` bookkeeping call has no effect observable here) and stores it
in `_point_to_node[point]`, overwriting any previous entry for that key. -/
def Road.add_control_point (road : Road) (point : Point) : Road :=
  let node := RoadSimpleNode point
  { road with
      nodes := road.nodes ++ [node],
      point_to_node := fun q => if q = point then some node else road.point_to_node q }

/-- `Road.from_control_points(array_of_points)`: builds a fresh road and
adds each point in order with `add_control_point`. -/
def Road.from_control_points (array_of_points : List Point) : Road :=
  array_of_points.foldl Road.add_control_point Road.new

/-- `Road.control_points()`: the node centers in chain order. -/
def Road.control_points (road : Road) : List Point :=
  road.nodes.map Node.center

/-- `Road.node_count()`. -/
def Road.node_count (road : Road) : ℕ :=
  road.nodes.length

/-- `Road.lane_count()`. -/
def Road.lane_count (road : Road) : ℕ :=
  road.lanes.length

/-- `Road.add_lane(offset, width=4, reversed=False)`: appends a lane built
from the given arguments. -/
def Road.add_lane (road : Road) (offset : ℚ) (width : ℚ) (rev : Bool) : Road :=
  { road with lanes := road.lanes ++ [{ width := width, offset := offset, reversed := rev }] }

/-- Python `min(sequence)`: raises `ValueError` on an empty sequence,
otherwise folds the binary minimum over the elements. -/
def pyMin : List ℚ → Except PyError ℚ
  | [] => Except.error PyError.valueError
  | x :: xs => Except.ok (xs.foldl min x)

/-- Python `max(sequence)`: raises `ValueError` on an empty sequence,
otherwise folds the binary maximum over the elements. -/
def pyMax : List ℚ → Except PyError ℚ
  | [] => Except.error PyError.valueError
  | x :: xs => Except.ok (xs.foldl max x)

/-- `Road.width()`: `abs(min(external_offsets)) + abs(max(external_offsets))`
where `external_offsets` maps `external_offset()` over `lanes()`.  With no
lanes, `min` of the empty sequence raises `ValueError`. -/
def Road.width (road : Road) : Except PyError ℚ := do
  let external_offsets := road.lanes.map Lane.external_offset
  let m ← pyMin external_offsets
  let M ← pyMax external_offsets
  return |m| + |M|

/-- `Road.first_node()`: `self._nodes[0]`, an `IndexError` on an empty
road. -/
def Road.first_node (road : Road) : Except PyError Node :=
  match road.nodes with
  | [] => Except.error PyError.indexError
  | node :: _ => Except.ok node

/-- `Road.last_node()`: `self._nodes[-1]`, an `IndexError` on an empty
road. -/
def Road.last_node (road : Road) : Except PyError Node :=
  match road.nodes with
  | [] => Except.error PyError.indexError
  | node :: rest => Except.ok ((node :: rest).getLast (List.cons_ne_nil node rest))

/-- `Road.reverse()`: reverses `_nodes` in place; the point index and the
lanes are untouched. -/
def Road.reverse (road : Road) : Road :=
  { road with nodes := road.nodes.reverse }

/-- The generator inside `Road._index_of_node_at`: index of the first node
of the list whose center equals the point exactly, `none` otherwise. -/
def index_of_from (point : Point) : List Node → Option ℕ
  | [] => none
  | node :: rest =>
      if node.center = point then some 0
      else (index_of_from point rest).map (fun i => i + 1)

/-- `Road._index_of_node_at(point)`:
`next((index for index, node in enumerate(self._nodes) if node.center == point), None)`. -/
def Road.index_of_node_at (road : Road) (point : Point) : Option ℕ :=
  index_of_from point road.nodes

/-- `Road.replace_node_at(point, new_node)`: looks up the index of the
node at `point`.  When the lookup yields `None`, the subsequent
`self._nodes[index]` indexes the list with `None` and raises `TypeError`.
Otherwise the slot is overwritten with `new_node` and the bookkeeping
calls run in source order: `new_node.added_to(self)` then
`old_node.removed_from(self)`; the emitted trace is returned alongside
the updated road.  (The inner `none` branch is unreachable because
`index_of_node_at` only returns valid indices; Python would raise
`IndexError` there.) -/
def Road.replace_node_at (road : Road) (point : Point) (new_node : Node) :
    Except PyError (Road × List RoadEvent) :=
  match road.index_of_node_at point with
  | none => Except.error PyError.typeError
  | some index =>
      match road.nodes.get? index with
      | none => Except.error PyError.indexError
      | some old_node =>
          Except.ok
            ({ road with nodes := road.nodes.set index new_node },
             [RoadEvent.added_to new_node, RoadEvent.removed_from old_node])

/-- `Road.control_points_distances()`: `[0.0]` when there is exactly one
control point, otherwise the external `Point.distance_to` primitive
(passed as `dist`) mapped over consecutive pairs
`zip(points, points[1:])`. -/
def Road.control_points_distances (dist : Point → Point → ℚ) (road : Road) : List ℚ :=
  let points := road.control_points
  if points.length = 1 then [0]
  else (points.zip points.tail).map (fun point_pair => dist point_pair.1 point_pair.2)

/-- The `for index in range(1, self.node_count() - 1)` loop of
`Road.trim_redundant_nodes`, expressed over the suffix of the node list
starting at index 1: `current_node` walks the interior nodes (each one
still followed by at least one node), `previous_node` is the last node
kept so far.  The external `Point.angle` primitive is passed as `ang`. -/
def trimLoop (ang : Point → Point → ℚ) (angle : ℚ) (previous_node : Node) :
    List Node → List Node
  | current_node :: following_node :: rest =>
      let previous_vector := current_node.center - previous_node.center
      let following_vector := following_node.center - current_node.center
      if current_node.is_intersection = true ∨ |ang previous_vector following_vector| > angle
      then current_node :: trimLoop ang angle current_node (following_node :: rest)
      else trimLoop ang angle previous_node (following_node :: rest)
  | _ => []

/-- `Road.trim_redundant_nodes(angle=0)`: starts from `first_node()`
(an `IndexError` on an empty road), walks the interior indices keeping
intersection nodes and sharp turns, appends `last_node()` and replaces
`_nodes` with the result. -/
def Road.trim_redundant_nodes (ang : Point → Point → ℚ) (road : Road) (angle : ℚ) :
    Except PyError Road :=
  match road.nodes with
  | [] => Except.error PyError.indexError
  | first :: rest =>
      Except.ok
        { road with
            nodes := (first :: trimLoop ang angle first rest)
              ++ [(first :: rest).getLast (List.cons_ne_nil first rest)] }

/-- `Road.__eq__(other)`: the class comparison (always true between two
`Road`s), then `self.width() == other.width()` — which evaluates both
widths and can raise — then element-wise node equality. -/
def Road.road_eq (road other : Road) : Except PyError Bool := do
  let w ← road.width
  let w2 ← other.width
  return decide (w = w2) && decide (road.nodes = other.nodes)

/-- The trimming rule of the specification, written from its words: walk
the interior nodes paired with their immediate successors; keep a node if
it is an intersection node or if the absolute angle between the vector
from the last kept node to it and the vector from it to its successor is
strictly greater than the threshold; a kept node becomes the new
reference. -/
def spec_kept (ang : Point → Point → ℚ) (angle : ℚ) (previous : Node) :
    List (Node × Node) → List Node
  | [] => []
  | (current, following) :: more =>
      if current.is_intersection = true
          ∨ |ang (current.center - previous.center) (following.center - current.center)| > angle
      then current :: spec_kept ang angle current more
      else spec_kept ang angle previous more

/-- A stand-in for the external `Point.angle` primitive in concrete
witnesses (the theorems are parametric in it). -/
def ang_zero : Point → Point → ℚ := fun _ _ => 0

/-- A road with a single node, at the origin. -/
def road_single : Road :=
  { Road.new with nodes := [RoadSimpleNode (0, 0)] }

/-- A road with two nodes. -/
def road_pair : Road :=
  { Road.new with nodes := [RoadSimpleNode (0, 0), RoadSimpleNode (1, 0)] }

/-- A road with three collinear nodes. -/
def road_three : Road :=
  { Road.new with
      nodes := [RoadSimpleNode (0, 0), RoadSimpleNode (1, 0), RoadSimpleNode (2, 0)] }

/-- A road whose two nodes share the same center, distinguishable by
kind. -/
def road_dup_center : Road :=
  { Road.new with nodes := [RoadSimpleNode (0, 0), RoadIntersectionNode (0, 0)] }

/-- A two-node road with two lanes (offsets -2 and 3, width 4 each). -/
def road_lanes : Road :=
  (road_pair.add_lane (-2) 4 false).add_lane 3 4 false

/-- The control points used by the witness of the constructor claim. -/
def cps_ex : List Point := [(0, 0), (1, 0)]

/-- C9: reversing a road twice restores it exactly (node order included);
`reverse` only touches the node list, and list reversal is an
involution. -/
theorem reverse_reverse_id (road : Road) : road.reverse.reverse = road := by
  obtain ⟨n, ns, p, ls⟩ := road
  simp [Road.reverse]

/-- C6: comparing two lane-less roads with `==` does not return a boolean;
`__eq__` calls `width()`, and `min()` over the empty external-offset
sequence raises `ValueError`.  Evaluated here on two fresh roads. -/
theorem road_eq_lane_less_raises :
    Road.road_eq Road.new Road.new = Except.error PyError.valueError := rfl

/-- C7: `replace_node_at` on a point matching no node center does not
raise a lookup failure: `_index_of_node_at` returns `None` and
`self._nodes[None]` raises `TypeError` downstream.  Evaluated on a
single-node road and a point away from its node. -/
theorem replace_node_at_missing_point :
    Road.replace_node_at road_single (1, 1) (RoadSimpleNode (2, 2))
      = Except.error PyError.typeError := rfl

/-- C8 counterexample: on an empty road, `first_node` raises `IndexError`
(list indexing), not the `EmptyRoadError` of the claim; `last_node`
likewise. -/
theorem first_node_empty_not_emptyRoadError :
    Road.first_node Road.new = Except.error PyError.indexError ∧
    Road.first_node Road.new ≠ Except.error PyError.emptyRoadError ∧
    Road.last_node Road.new ≠ Except.error PyError.emptyRoadError := by
  refine ⟨rfl, ?_, ?_⟩ <;> simp [Road.first_node, Road.last_node, Road.new]

/-- C8 amended: on an empty road, `first_node` and `last_node` both raise
an error — Python `IndexError` from indexing the empty node list. -/
theorem first_last_node_empty (road : Road) (h : road.node_count = 0) :
    road.first_node = Except.error PyError.indexError ∧
    road.last_node = Except.error PyError.indexError := by
  have hn : road.nodes = [] := List.length_eq_zero.mp h
  exact ⟨by simp [Road.first_node, hn], by simp [Road.last_node, hn]⟩

/-- C8 witness: the amended statement applied to a fresh empty road. -/
theorem first_last_node_empty_witness :
    Road.new.node_count = 0 ∧
    (Road.new.first_node = Except.error PyError.indexError ∧
     Road.new.last_node = Except.error PyError.indexError) :=
  ⟨rfl, first_last_node_empty Road.new rfl⟩

/-- C2 counterexample: trimming a one-node road is not a no-op — the
single node is appended a second time (`first_node` is recorded, the loop
body never runs, and `last_node`, the same node, is appended). -/
theorem trim_one_node_not_noop :
    (Road.trim_redundant_nodes ang_zero road_single 0).map Road.nodes
        = Except.ok [RoadSimpleNode (0, 0), RoadSimpleNode (0, 0)] ∧
    road_single.nodes ≠ [RoadSimpleNode (0, 0), RoadSimpleNode (0, 0)] := by
  refine ⟨rfl, ?_⟩
  decide

/-- C2 amended: with exactly two nodes `trim_redundant_nodes` is a no-op;
with zero nodes it raises an error (`IndexError` from `first_node` on an
empty list); with one node it duplicates that node. -/
theorem trim_small_counts (ang : Point → Point → ℚ) (angle : ℚ) (road : Road) :
    (road.nodes = [] →
      road.trim_redundant_nodes ang angle = Except.error PyError.indexError) ∧
    (∀ a, road.nodes = [a] →
      road.trim_redundant_nodes ang angle = Except.ok { road with nodes := [a, a] }) ∧
    (∀ a b, road.nodes = [a, b] →
      road.trim_redundant_nodes ang angle = Except.ok road) := by
  obtain ⟨n, ns, p, ls⟩ := road
  refine ⟨?_, ?_, ?_⟩
  · intro h
    simp only at h
    subst h
    rfl
  · intro a h
    simp only at h
    subst h
    rfl
  · intro a b h
    simp only at h
    subst h
    rfl

/-- C2 witness: the two-node no-op clause of the amended statement,
applied to a concrete two-node road. -/
theorem trim_small_counts_witness :
    Road.trim_redundant_nodes ang_zero road_pair 0 = Except.ok road_pair :=
  (trim_small_counts ang_zero 0 road_pair).2.2
    (RoadSimpleNode (0, 0)) (RoadSimpleNode (1, 0)) rfl

/-- Python `min` folded over a nonempty sequence yields an element of the
sequence. -/
theorem foldl_min_mem (xs : List ℚ) : ∀ x : ℚ, xs.foldl min x ∈ x :: xs := by
  induction xs with
  | nil => intro x; simp
  | cons a l ih =>
      intro x
      have h := ih (min x a)
      rcases min_choice x a with hm | hm <;>
        · rw [hm] at h
          simp only [List.foldl_cons]
          rw [hm]
          rcases List.mem_cons.mp h with h1 | h1 <;> simp [h1]

/-- Python `min` folded over a nonempty sequence is a lower bound of it. -/
theorem foldl_min_le (xs : List ℚ) : ∀ x : ℚ, ∀ y ∈ x :: xs, xs.foldl min x ≤ y := by
  induction xs with
  | nil => intro x y hy; simp at hy; simp [hy]
  | cons a l ih =>
      intro x y hy
      simp only [List.foldl_cons]
      rcases List.mem_cons.mp hy with h1 | h1
      · exact le_trans (le_trans (ih (min x a) (min x a) (by simp)) (min_le_left x a)) (le_of_eq h1.symm)
      · rcases List.mem_cons.mp h1 with h2 | h2
        · exact le_trans (le_trans (ih (min x a) (min x a) (by simp)) (min_le_right x a)) (le_of_eq h2.symm)
        · exact ih (min x a) y (List.mem_cons_of_mem _ h2)

/-- Python `max` folded over a nonempty sequence yields an element of the
sequence. -/
theorem foldl_max_mem (xs : List ℚ) : ∀ x : ℚ, xs.foldl max x ∈ x :: xs := by
  induction xs with
  | nil => intro x; simp
  | cons a l ih =>
      intro x
      have h := ih (max x a)
      rcases max_choice x a with hm | hm <;>
        · rw [hm] at h
          simp only [List.foldl_cons]
          rw [hm]
          rcases List.mem_cons.mp h with h1 | h1 <;> simp [h1]

/-- Python `max` folded over a nonempty sequence is an upper bound of it. -/
theorem foldl_max_ge (xs : List ℚ) : ∀ x : ℚ, ∀ y ∈ x :: xs, y ≤ xs.foldl max x := by
  induction xs with
  | nil => intro x y hy; simp at hy; simp [hy]
  | cons a l ih =>
      intro x y hy
      simp only [List.foldl_cons]
      rcases List.mem_cons.mp hy with h1 | h1
      · exact le_trans (le_of_eq h1) (le_trans (le_max_left x a) (ih (max x a) (max x a) (by simp)))
      · rcases List.mem_cons.mp h1 with h2 | h2
        · exact le_trans (le_of_eq h2) (le_trans (le_max_right x a) (ih (max x a) (max x a) (by simp)))
        · exact ih (max x a) y (List.mem_cons_of_mem _ h2)

/-- C5 counterexample: `width()` on a road with zero lanes raises
`ValueError` (Python `min()` over the empty offset sequence), not the
`NoLanesError` of the claim. -/
theorem width_no_lanes_not_noLanesError :
    Road.width Road.new = Except.error PyError.valueError ∧
    Road.width Road.new ≠ Except.error PyError.noLanesError := by
  refine ⟨rfl, ?_⟩
  intro h
  exact PyError.noConfusion (Except.error.inj h)

/-- C5 amended: with zero lanes `width()` raises an error — Python
`ValueError` from `min()` on the empty sequence — and with at least one
lane it returns `abs(min) + abs(max)` over the lanes' external offsets:
the result is `|m| + |M|` for a least element `m` and a greatest element
`M` of the external-offset sequence. -/
theorem width_spec (road : Road) :
    (road.lane_count = 0 → road.width = Except.error PyError.valueError) ∧
    (road.lane_count ≠ 0 → ∃ m M,
      road.width = Except.ok (|m| + |M|) ∧
      m ∈ road.lanes.map Lane.external_offset ∧
      M ∈ road.lanes.map Lane.external_offset ∧
      ∀ x ∈ road.lanes.map Lane.external_offset, m ≤ x ∧ x ≤ M) := by
  constructor
  · intro h
    have hl : road.lanes = [] := List.length_eq_zero.mp h
    simp only [Road.width, hl, List.map_nil, pyMin]
    rfl
  · intro h
    rcases hl : road.lanes.map Lane.external_offset with _ | ⟨e, es⟩
    · exact absurd (by simpa [Road.lane_count] using List.map_eq_nil_iff.mp hl) h
    · refine ⟨es.foldl min e, es.foldl max e, ?_, ?_, ?_, ?_⟩
      · simp only [Road.width, hl, pyMin, pyMax]
        rfl
      · exact foldl_min_mem es e
      · exact foldl_max_mem es e
      · intro x hx
        exact ⟨foldl_min_le es e x hx, foldl_max_ge es e x hx⟩

/-- C5 witness: the at-least-one-lane clause of the amended statement,
applied to a road with lanes at offsets -2 and 3 of width 4. -/
theorem width_spec_witness :
    ∃ m M,
      road_lanes.width = Except.ok (|m| + |M|) ∧
      m ∈ road_lanes.lanes.map Lane.external_offset ∧
      M ∈ road_lanes.lanes.map Lane.external_offset ∧
      ∀ x ∈ road_lanes.lanes.map Lane.external_offset, m ≤ x ∧ x ≤ M :=
  (width_spec road_lanes).2 (by decide)

/-- Mapping a binary function over `zip(l, l[1:])` reads, at position `i`,
the elements of `l` at positions `i` and `i + 1`. -/
theorem zip_tail_map_getD {α β : Type} (f : α → α → β) (d : α) (e : β) :
    ∀ (l : List α) (i : ℕ), i + 1 < l.length →
      ((l.zip l.tail).map (fun p => f p.1 p.2)).getD i e = f (l.getD i d) (l.getD (i + 1) d) := by
  intro l
  induction l with
  | nil => intro i h; simp at h
  | cons a t ih =>
      intro i h
      cases t with
      | nil => simp at h
      | cons b t2 =>
          cases i with
          | zero => simp
          | succ j =>
              have hj : j + 1 < (b :: t2).length := by simpa using h
              have := ih j hj
              simpa using this

/-- C3: `control_points_distances()` yields `[0.0]` for a single control
point; otherwise it has `node_count() - 1` entries (`max(n - 1, 0)` —
natural subtraction) and its `i`-th entry is the external distance
primitive applied to control points `i` and `i + 1`. -/
theorem control_points_distances_spec (dist : Point → Point → ℚ) (road : Road) :
    (road.node_count = 1 → road.control_points_distances dist = [0]) ∧
    (road.node_count ≠ 1 →
      (road.control_points_distances dist).length = road.node_count - 1 ∧
      ∀ i, i + 1 < road.node_count →
        (road.control_points_distances dist).getD i 0
          = dist (road.control_points.getD i (0, 0))
              (road.control_points.getD (i + 1) (0, 0))) := by
  have hlen : road.control_points.length = road.node_count := by
    simp [Road.control_points, Road.node_count]
  constructor
  · intro h
    simp [Road.control_points_distances, hlen, h]
  · intro h
    have hne : ¬ road.control_points.length = 1 := by rw [hlen]; exact h
    constructor
    · simp only [Road.control_points_distances, if_neg hne, List.length_map,
        List.length_zip, List.length_tail]
      rw [min_eq_right (Nat.sub_le _ _), hlen]
    · intro i hi
      rw [← hlen] at hi
      simp only [Road.control_points_distances, if_neg hne]
      exact zip_tail_map_getD dist (0, 0) 0 road.control_points i hi

/-- C3 witness: the multi-point clause applied to a concrete two-node
road with a concrete distance function. -/
theorem control_points_distances_witness :
    (Road.control_points_distances ang_zero road_pair).length = road_pair.node_count - 1 ∧
    ∀ i, i + 1 < road_pair.node_count →
      (Road.control_points_distances ang_zero road_pair).getD i 0
        = ang_zero (road_pair.control_points.getD i (0, 0))
            (road_pair.control_points.getD (i + 1) (0, 0)) :=
  (control_points_distances_spec ang_zero road_pair).2 (by decide)

/-- Adding control points one by one appends one fresh simple node per
point, in input order. -/
theorem foldl_acp_nodes (P : List Point) :
    ∀ r : Road, (P.foldl Road.add_control_point r).nodes = r.nodes ++ P.map RoadSimpleNode := by
  induction P with
  | nil => intro r; simp
  | cons p ps ih =>
      intro r
      rw [List.foldl_cons, ih (r.add_control_point p)]
      show (r.nodes ++ [RoadSimpleNode p]) ++ ps.map RoadSimpleNode
        = r.nodes ++ (RoadSimpleNode p :: ps.map RoadSimpleNode)
      rw [List.append_assoc]
      rfl

/-- After adding control points one by one, the point index answers every
key in the list with the simple node at that key, and leaves other keys
as before. -/
theorem foldl_acp_index (P : List Point) :
    ∀ (r : Road) (q : Point),
      (P.foldl Road.add_control_point r).point_to_node q
        = if q ∈ P then some (RoadSimpleNode q) else r.point_to_node q := by
  induction P with
  | nil => intro r q; simp
  | cons p ps ih =>
      intro r q
      rw [List.foldl_cons, ih (r.add_control_point p) q]
      by_cases hq : q ∈ ps
      · simp [hq]
      · by_cases hqp : q = p
        · subst hqp
          simp [hq, Road.add_control_point]
        · simp [hq, hqp, Road.add_control_point]

/-- C4: a road built by `from_control_points(P)` with nonempty `P` has
`node_count() == |P|`, its control points are exactly `P` in order, and
every node is a simple node that `point_to_node` yields when looked up at
the node's center. -/
theorem from_control_points_spec (P : List Point) (_h : P ≠ []) :
    (Road.from_control_points P).node_count = P.length ∧
    (Road.from_control_points P).control_points = P ∧
    ∀ node ∈ (Road.from_control_points P).nodes,
      node.is_intersection = false ∧
      (Road.from_control_points P).point_to_node node.center = some node := by
  have hnodes : (Road.from_control_points P).nodes = P.map RoadSimpleNode := by
    rw [Road.from_control_points, foldl_acp_nodes P Road.new]
    simp [Road.new]
  refine ⟨?_, ?_, ?_⟩
  · simp [Road.node_count, hnodes]
  · have hc : Node.center ∘ RoadSimpleNode = id := rfl
    simp [Road.control_points, hnodes, List.map_map, hc]
  · intro node hmem
    rw [hnodes] at hmem
    rcases List.mem_map.mp hmem with ⟨p, hp, hnode⟩
    subst hnode
    refine ⟨rfl, ?_⟩
    rw [Road.from_control_points, foldl_acp_index P Road.new]
    simp [RoadSimpleNode, hp]

/-- C4 witness: the statement applied to the concrete point list
`[(0, 0), (1, 0)]`. -/
theorem from_control_points_witness :
    cps_ex ≠ [] ∧
    ((Road.from_control_points cps_ex).node_count = cps_ex.length ∧
     (Road.from_control_points cps_ex).control_points = cps_ex ∧
     ∀ node ∈ (Road.from_control_points cps_ex).nodes,
       node.is_intersection = false ∧
       (Road.from_control_points cps_ex).point_to_node node.center = some node) :=
  ⟨by decide, from_control_points_spec cps_ex (by decide)⟩

/-- The generator of `_index_of_node_at` returns the lowest index whose
node center equals the point: if position `i` matches and every earlier
position does not, the result is `some i`. -/
theorem index_of_from_first (point : Point) :
    ∀ (l : List Node) (i : ℕ) (h1 : i < l.length),
      (l.get ⟨i, h1⟩).center = point →
      (∀ j (hj : j < i), (l.get ⟨j, lt_trans hj h1⟩).center ≠ point) →
      index_of_from point l = some i := by
  intro l
  induction l with
  | nil => intro i h1; simp at h1
  | cons node rest ih =>
      intro i h1 h2 h3
      cases i with
      | zero =>
          simp only [List.get] at h2
          simp [index_of_from, h2]
      | succ j =>
          have hne : node.center ≠ point := h3 0 (Nat.succ_pos j)
          have hj1 : j < rest.length := Nat.lt_of_succ_lt_succ h1
          have hrec : index_of_from point rest = some j := by
            refine ih j hj1 h2 ?_
            intro k hk
            exact h3 (k + 1) (Nat.succ_lt_succ hk)
          simp [index_of_from, hne, hrec]

/-- C10: when a node center matches the point at index `i` and no earlier
node matches, `replace_node_at` overwrites exactly slot `i` (emitting the
`added_to` then `removed_from` bookkeeping calls), and every other
position of the node list is unchanged — in particular later matching
nodes remain in place. -/
theorem replace_node_at_first_match (road : Road) (point : Point) (new_node : Node)
    (i : ℕ) (h1 : i < road.nodes.length)
    (h2 : (road.nodes.get ⟨i, h1⟩).center = point)
    (h3 : ∀ j (hj : j < i), (road.nodes.get ⟨j, lt_trans hj h1⟩).center ≠ point) :
    road.replace_node_at point new_node
        = Except.ok ({ road with nodes := road.nodes.set i new_node },
                     [RoadEvent.added_to new_node,
                      RoadEvent.removed_from (road.nodes.get ⟨i, h1⟩)]) ∧
    ∀ j, j ≠ i → (road.nodes.set i new_node)[j]? = road.nodes[j]? := by
  constructor
  · have hidx : road.index_of_node_at point = some i :=
      index_of_from_first point road.nodes i h1 h2 h3
    simp [Road.replace_node_at, hidx, List.getElem?_eq_getElem h1]
  · intro j hj
    exact List.getElem?_set_ne (fun he => hj he.symm)

/-- C10 witness: a road whose two nodes share the center `(0, 0)`; the
replacement at `(0, 0)` overwrites index 0 only. -/
theorem replace_node_at_first_match_witness :
    0 < road_dup_center.nodes.length ∧
    Road.replace_node_at road_dup_center (0, 0) (RoadSimpleNode (5, 5))
        = Except.ok ({ road_dup_center with
                         nodes := road_dup_center.nodes.set 0 (RoadSimpleNode (5, 5)) },
                     [RoadEvent.added_to (RoadSimpleNode (5, 5)),
                      RoadEvent.removed_from (road_dup_center.nodes.get ⟨0, by decide⟩)]) :=
  ⟨by decide,
   (replace_node_at_first_match road_dup_center (0, 0) (RoadSimpleNode (5, 5)) 0
      (by decide) (by decide) (fun j hj => absurd hj (Nat.not_lt_zero j))).1⟩

/-- The interior loop of `trim_redundant_nodes` computes exactly the
specification rule `spec_kept` applied to the interior nodes paired with
their successors. -/
theorem trimLoop_eq_spec_kept (ang : Point → Point → ℚ) (angle : ℚ) :
    ∀ (l : List Node) (prev : Node),
      trimLoop ang angle prev l = spec_kept ang angle prev (l.zip l.tail) := by
  intro l
  induction l with
  | nil => intro prev; rfl
  | cons x xs ih =>
      intro prev
      cases xs with
      | nil => rfl
      | cons y r =>
          show trimLoop ang angle prev (x :: y :: r)
            = spec_kept ang angle prev ((x, y) :: ((y :: r).zip r))
          rw [trimLoop, spec_kept]
          have hyr : (y :: r).zip r = (y :: r).zip (y :: r).tail := rfl
          by_cases hc : x.is_intersection = true
              ∨ |ang (x.center - prev.center) (y.center - x.center)| > angle
          · rw [if_pos hc, if_pos hc, hyr, ih x]
          · rw [if_neg hc, if_neg hc, hyr, ih prev]

/-- C1: on a road with at least three nodes, `trim_redundant_nodes`
replaces the node list with the first node, then the interior nodes kept
by the specification rule (intersection nodes, and nodes whose absolute
angle against the last kept node exceeds the threshold strictly, each
kept node becoming the new reference), then the last node. -/
theorem trim_redundant_nodes_spec (ang : Point → Point → ℚ) (angle : ℚ) (road : Road)
    (first : Node) (rest : List Node) (h : road.nodes = first :: rest)
    (_h3 : 3 ≤ road.node_count) :
    road.trim_redundant_nodes ang angle
      = Except.ok { road with nodes :=
          (first :: spec_kept ang angle first (rest.zip rest.tail))
            ++ [(first :: rest).getLast (List.cons_ne_nil first rest)] } := by
  obtain ⟨n, ns, p, ls⟩ := road
  simp only at h
  subst h
  simp [Road.trim_redundant_nodes, trimLoop_eq_spec_kept ang angle rest first]

/-- C1 witness: the statement applied to a concrete three-node collinear
road with a concrete angle primitive. -/
theorem trim_redundant_nodes_spec_witness :
    3 ≤ road_three.node_count ∧
    Road.trim_redundant_nodes ang_zero road_three 0
      = Except.ok { road_three with nodes :=
          (RoadSimpleNode (0, 0) :: spec_kept ang_zero 0 (RoadSimpleNode (0, 0))
              ([RoadSimpleNode (1, 0), RoadSimpleNode (2, 0)].zip
                [RoadSimpleNode (1, 0), RoadSimpleNode (2, 0)].tail))
            ++ [(RoadSimpleNode (0, 0) :: [RoadSimpleNode (1, 0), RoadSimpleNode (2, 0)]).getLast
                  (List.cons_ne_nil _ _)] } :=
  ⟨by decide,
   trim_redundant_nodes_spec ang_zero 0 road_three (RoadSimpleNode (0, 0))
     [RoadSimpleNode (1, 0), RoadSimpleNode (2, 0)] rfl (by decide)⟩

end Terminus
